import Mathlib

/-!
Verification development for the `nhse_scraper.py` module of the
NHS flow dashboard repository.  Python strings are modelled as lists of
Unicode code points, tables as lists of rows of such strings, and the
process state (HTTP downloads and the on-disk cache) as an explicit state
record threaded through the fetch functions.
-/

/-- Python strings, modelled as lists of Unicode code points. -/
abbrev PyStr := List Nat

/-- Code points of a Lean string literal, for writing concrete Python strings. -/
def codes (s : String) : PyStr := s.data.map Char.toNat

/-- Model of `str.lower` on a single code point (ASCII letters; the data the
scraper handles is ASCII). -/
def lowerCp (c : Nat) : Nat := if 65 ≤ c ∧ c ≤ 90 then c + 32 else c

/-- Model of Python `str.lower`. -/
def lowerB (s : PyStr) : PyStr := s.map lowerCp

/-- Whitespace code points removed by Python `str.strip` (ASCII range). -/
def isSpaceCp (c : Nat) : Bool := c = 32 || c = 9 || c = 10 || c = 13 || c = 11 || c = 12

/-- Left part of Python `str.strip`. -/
def lstripB (s : PyStr) : PyStr := s.dropWhile isSpaceCp

/-- Right part of Python `str.strip`. -/
def rstripB (s : PyStr) : PyStr := (s.reverse.dropWhile isSpaceCp).reverse

/-- Model of Python `str.strip`. -/
def stripB (s : PyStr) : PyStr := rstripB (lstripB s)

/-- Model of Python `sub in s` (substring containment).  Also used for
`pandas.Series.str.contains` on tokens free of regex metacharacters, where
the regex search degenerates to substring search. -/
def containsB (s sub : PyStr) : Bool := decide (sub <:+: s)

/-- A code point that the `re` module treats literally (letters, digits,
space): for tokens made of these, `str.contains` is substring search. -/
def literalCp (c : Nat) : Prop := (48 ≤ c ∧ c ≤ 57) ∨ (65 ≤ c ∧ c ≤ 90) ∨ (97 ≤ c ∧ c ≤ 122) ∨ c = 32

instance (c : Nat) : Decidable (literalCp c) := by
  unfold literalCp
  infer_instance

/-- A row of a fetched table as seen by the peer filter: the normalised
`PROVIDER` text plus an opaque payload standing for all other fields. -/
structure PRow where
  provider : PyStr
  payload : Nat
deriving DecidableEq

/-- Embeds `nhse_scraper.py` lines 74-79, the peer filter of
`fetch_ae_monthly_provider`: if the peer list is empty nothing happens,
otherwise each token `p` becomes `str(p).lower().strip()` and a row is kept
when its lowercased PROVIDER contains some processed token. -/
def ae_peer_filter (tokens : List PyStr) (rows : List PRow) : List PRow :=
  if tokens.isEmpty then rows
  else rows.filter (fun r => tokens.any (fun p => containsB (lowerB r.provider) (stripB (lowerB p))))

/-- Embeds lines 122-126, the peer filter of
`fetch_ambulance_handover_timeseries`: tokens are lowercased, not stripped. -/
def amb_peer_filter (tokens : List PyStr) (rows : List PRow) : List PRow :=
  if tokens.isEmpty then rows
  else rows.filter (fun r => tokens.any (fun p => containsB (lowerB r.provider) (lowerB p)))

/-- Embeds lines 160-164, the peer filter of
`fetch_acute_discharge_timeseries`: same shape as the ambulance filter. -/
def acute_peer_filter (tokens : List PyStr) (rows : List PRow) : List PRow :=
  if tokens.isEmpty then rows
  else rows.filter (fun r => tokens.any (fun p => containsB (lowerB r.provider) (lowerB p)))

/-- C1 as stated is false: `fetch_ae_monthly_provider` strips each token
before matching, so token `" x "` retains the row with PROVIDER `"axb"`,
whose PROVIDER does not contain `" x "` as a case-insensitive substring. -/
theorem c1_counterexample :
    ae_peer_filter [codes " x "] [⟨codes "axb", 0⟩] = [⟨codes "axb", 0⟩] ∧
      ¬ (lowerB (codes " x ") <:+: lowerB (codes "axb")) := by
  constructor
  · decide
  · decide

/-- C1 amended: for a non-empty peer list of regex-literal tokens, the three
peer filters retain exactly the rows whose lowercased PROVIDER contains some
lowercased token — stripped of surrounding whitespace in the A&E monthly
fetcher, taken as given in the ambulance and acute-discharge fetchers. -/
theorem c1_peer_filter_amended (tokens : List PyStr) (rows : List PRow)
    (hne : tokens ≠ [])
    (hlit : ∀ p ∈ tokens, ∀ c ∈ p, literalCp c) :
    (∀ r, r ∈ ae_peer_filter tokens rows ↔
       r ∈ rows ∧ ∃ p ∈ tokens, stripB (lowerB p) <:+: lowerB r.provider) ∧
    (∀ r, r ∈ amb_peer_filter tokens rows ↔
       r ∈ rows ∧ ∃ p ∈ tokens, lowerB p <:+: lowerB r.provider) ∧
    (∀ r, r ∈ acute_peer_filter tokens rows ↔
       r ∈ rows ∧ ∃ p ∈ tokens, lowerB p <:+: lowerB r.provider) := by
  have hie : tokens.isEmpty = false := by
    cases tokens with
    | nil => exact absurd rfl hne
    | cons a l => rfl
  refine ⟨fun r => ?_, fun r => ?_, fun r => ?_⟩ <;>
    simp [ae_peer_filter, amb_peer_filter, acute_peer_filter, hie, List.mem_filter, containsB]

/-- C1 amended, witnessed on concrete data: token "Port" retains the
Portsmouth row. -/
theorem c1_peer_filter_amended_witness :
    (⟨codes "PORTSMOUTH HOSPITALS", 0⟩ : PRow) ∈
      ae_peer_filter [codes "Port"]
        [⟨codes "PORTSMOUTH HOSPITALS", 0⟩, ⟨codes "OXFORD", 1⟩] :=
  ((c1_peer_filter_amended [codes "Port"]
      [⟨codes "PORTSMOUTH HOSPITALS", 0⟩, ⟨codes "OXFORD", 1⟩]
      (by decide) (by decide)).1 _).mpr (by decide)

/-- C2: filtering with an empty PeerSet is the identity on rows in all three
peer-filtering fetchers. -/
theorem c2_empty_peerset_identity (rows : List PRow) :
    ae_peer_filter [] rows = rows ∧ amb_peer_filter [] rows = rows ∧
      acute_peer_filter [] rows = rows :=
  ⟨rfl, rfl, rfl⟩

/-- Model of Python `s.replace(old, "")` — delete every non-overlapping
occurrence of `old`, scanning left to right — as used on line 226.  The
patterns used in the source are non-empty; on an empty pattern this model
leaves `s` unchanged. -/
def replaceDrop (pat : PyStr) : PyStr → PyStr
  | [] => []
  | x :: xs =>
    if _hpre : pat <+: (x :: xs) ∧ pat ≠ [] then
      replaceDrop pat ((x :: xs).drop pat.length)
    else
      x :: replaceDrop pat xs
termination_by s => s.length
decreasing_by
  · have hp : pat.length ≠ 0 := fun h0 => _hpre.2 (List.length_eq_zero.mp h0)
    simp only [List.length_drop, List.length_cons]
    omega
  · simp [List.length_cons]

/-- Embeds `normalise_provider_name` (lines 225-226):
`str(s).replace("NHS FOUNDATION TRUST","").replace("NHS TRUST","").strip().lower()`. -/
def normalise_provider_name (s : PyStr) : PyStr :=
  lowerB (stripB (replaceDrop (codes "NHS TRUST")
    (replaceDrop (codes "NHS FOUNDATION TRUST") s)))

lemma lowerCp_lowerCp (c : Nat) : lowerCp (lowerCp c) = lowerCp c := by
  unfold lowerCp
  split_ifs <;> omega

lemma lowerB_lowerB (s : PyStr) : lowerB (lowerB s) = lowerB s := by
  unfold lowerB
  rw [List.map_map]
  exact List.map_congr_left (fun a _ => lowerCp_lowerCp a)

lemma isSpaceCp_lowerCp (c : Nat) : isSpaceCp (lowerCp c) = isSpaceCp c := by
  rw [Bool.eq_iff_iff]
  unfold isSpaceCp lowerCp
  split_ifs with h
  · simp
    omega
  · simp

lemma dropWhile_dropWhile {α : Type} (p : α → Bool) (l : List α) :
    (l.dropWhile p).dropWhile p = l.dropWhile p := by
  induction l with
  | nil => rfl
  | cons x xs ih =>
    by_cases h : p x
    · simp [List.dropWhile_cons, h, ih]
    · simp [List.dropWhile_cons, h]

lemma lstripB_lowerB (s : PyStr) : lstripB (lowerB s) = lowerB (lstripB s) := by
  have hfun : (isSpaceCp ∘ lowerCp) = isSpaceCp := funext isSpaceCp_lowerCp
  unfold lstripB lowerB
  rw [List.dropWhile_map, hfun]

lemma rstripB_lowerB (s : PyStr) : rstripB (lowerB s) = lowerB (rstripB s) := by
  have hfun : (isSpaceCp ∘ lowerCp) = isSpaceCp := funext isSpaceCp_lowerCp
  unfold rstripB lowerB
  rw [← List.map_reverse, List.dropWhile_map, hfun, List.map_reverse]

lemma stripB_lowerB (s : PyStr) : stripB (lowerB s) = lowerB (stripB s) := by
  unfold stripB
  rw [lstripB_lowerB, rstripB_lowerB]

lemma lstripB_lstripB (s : PyStr) : lstripB (lstripB s) = lstripB s :=
  dropWhile_dropWhile _ _

lemma rstripB_rstripB (s : PyStr) : rstripB (rstripB s) = rstripB s := by
  unfold rstripB
  rw [List.reverse_reverse, dropWhile_dropWhile]

lemma lstripB_rstripB_of_fixed (t : PyStr) (ht : lstripB t = t) :
    lstripB (rstripB t) = rstripB t := by
  have hpre : rstripB t <+: t := by
    rw [← List.reverse_suffix]
    unfold rstripB
    rw [List.reverse_reverse]
    exact List.dropWhile_suffix _
  cases hr : rstripB t with
  | nil => rfl
  | cons y ys =>
    obtain ⟨tl, htl⟩ := hpre
    rw [hr] at htl
    have ht2 : t = y :: (ys ++ tl) := by rw [← htl]; rfl
    have hy : isSpaceCp y = false := by
      cases hys : isSpaceCp y with
      | false => rfl
      | true =>
        exfalso
        rw [ht2] at ht
        unfold lstripB at ht
        rw [List.dropWhile_cons, if_pos hys] at ht
        have hlen := (List.dropWhile_suffix (l := ys ++ tl) isSpaceCp).length_le
        rw [ht] at hlen
        simp only [List.length_cons] at hlen
        omega
    unfold lstripB
    rw [List.dropWhile_cons, if_neg (by simp [hy])]

lemma stripB_stripB (s : PyStr) : stripB (stripB s) = stripB s := by
  unfold stripB
  rw [lstripB_rstripB_of_fixed (lstripB s) (lstripB_lstripB s), rstripB_rstripB]

lemma replaceDrop_of_not_mem (pat s : PyStr) (c : Nat) (hc : c ∈ pat)
    (hs : c ∉ s) : replaceDrop pat s = s := by
  induction s with
  | nil => simp [replaceDrop]
  | cons x xs ih =>
    rw [replaceDrop]
    split_ifs with h
    · exfalso
      obtain ⟨tl, htl⟩ := h.1
      exact hs (htl ▸ List.mem_append_left tl hc)
    · rw [ih (fun hm => hs (List.mem_cons_of_mem _ hm))]

lemma lowerB_no_upper (s : PyStr) (c : Nat) (hc : c ∈ lowerB s) :
    ¬ (65 ≤ c ∧ c ≤ 90) := by
  unfold lowerB at hc
  obtain ⟨d, _, rfl⟩ := List.mem_map.mp hc
  unfold lowerCp
  split_ifs with h <;> omega

/-- C9: `normalise_provider_name` is idempotent, and its output is a fixed
point of lowercasing and of whitespace stripping (it is entirely lowercase
with no surrounding whitespace). -/
theorem c9_normalise_idempotent (s : PyStr) :
    normalise_provider_name (normalise_provider_name s) = normalise_provider_name s ∧
      lowerB (normalise_provider_name s) = normalise_provider_name s ∧
      stripB (normalise_provider_name s) = normalise_provider_name s := by
  have hstrip : stripB (normalise_provider_name s) = normalise_provider_name s := by
    unfold normalise_provider_name
    rw [stripB_lowerB, stripB_stripB]
  have hlower : lowerB (normalise_provider_name s) = normalise_provider_name s := by
    unfold normalise_provider_name
    rw [lowerB_lowerB]
  refine ⟨?_, hlower, hstrip⟩
  have hN : (78 : Nat) ∉ normalise_provider_name s :=
    fun hm => lowerB_no_upper _ 78 hm ⟨by omega, by omega⟩
  conv_lhs => rw [normalise_provider_name]
  rw [replaceDrop_of_not_mem (codes "NHS FOUNDATION TRUST") _ 78 (by decide) hN,
    replaceDrop_of_not_mem (codes "NHS TRUST") _ 78 (by decide) hN, hstrip, hlower]

/-- Byte strings (file and HTTP response contents); like `PyStr`, lists of
code points. -/
abbrev Bytes := List Nat

/-- Split a byte string at every occurrence of `c`.  The result is always
non-empty and no piece contains `c`. -/
def splitByte (c : Nat) : Bytes → List Bytes
  | [] => [[]]
  | x :: xs =>
    if x = c then [] :: splitByte c xs
    else
      match splitByte c xs with
      | [] => [[x]]
      | p :: ps => (x :: p) :: ps

/-- Join pieces with separator `c` (inverse of `splitByte`). -/
def joinWith (c : Nat) : List Bytes → Bytes
  | [] => []
  | [p] => p
  | p :: ps => p ++ c :: joinWith c ps

/-- The lines of a CSV byte string: split on newlines and drop the trailing
empty piece left by a final newline. -/
def csvLines (b : Bytes) : List Bytes :=
  if (splitByte 10 b).getLast? = some [] then (splitByte 10 b).dropLast
  else splitByte 10 b

/-- Model of `pandas.read_csv` on the plain comma-separated text the scraper
handles (no quoting, no type coercion): split into lines, split fields on
commas. -/
def readCsvModel (b : Bytes) : List (List PyStr) :=
  (csvLines b).map (splitByte 44)

/-- Model of `DataFrame.to_csv(index=False)` for such tables: each row joined
with commas and terminated by a newline. -/
def toCsvModel (t : List (List PyStr)) : Bytes :=
  (t.map (fun r => joinWith 44 r ++ [10])).flatten

/-- State of the process: the on-disk cache (filename key to file bytes) and
a count of HTTP GET requests issued so far. -/
structure CacheSt where
  cache : List (PyStr × Bytes)
  netCalls : Nat
deriving DecidableEq

/-- Cache lookup, modelling `os.path.exists` plus reading the file. -/
def readCache (st : CacheSt) (k : PyStr) : Option Bytes :=
  (st.cache.find? (fun e => decide (e.1 = k))).map (fun e => e.2)

/-- Cache write, modelling writing the file. -/
def writeCache (st : CacheSt) (k : PyStr) (v : Bytes) : CacheSt :=
  { st with cache := (k, v) :: st.cache }

/-- Model of `_download` (lines 24-27): one HTTP GET against `url`, whose
body is given by the deterministic environment `env`. -/
def download (env : PyStr → Bytes) (st : CacheSt) (url : PyStr) : Bytes × CacheSt :=
  (env url, { st with netCalls := st.netCalls + 1 })

/-- The state at start-up: empty cache directory, no requests issued. -/
def initSt : CacheSt := ⟨[], 0⟩

def KH03_Q4_2024_25_CSV : PyStr :=
  codes "https://www.england.nhs.uk/statistics/wp-content/uploads/sites/2/2025/06/KH03-Q4-2024-25-data-CSV.csv"

/-- Embeds `fetch_kh03_latest` (lines 205-212): return the parse of the
cached CSV if present; otherwise download, parse, write the re-serialised
parse (`df.to_csv`) to the cache, and return the parse. -/
def fetch_kh03_latest (env : PyStr → Bytes) (st : CacheSt) :
    List (List PyStr) × CacheSt :=
  match readCache st (codes "kh03_q4_2024_25.csv") with
  | some b => (readCsvModel b, st)
  | none =>
    let p := download env st KH03_Q4_2024_25_CSV
    let df := readCsvModel p.1
    (df, writeCache p.2 (codes "kh03_q4_2024_25.csv") (toCsvModel df))

/-- An in-memory table: column names and rows of text cells. -/
structure Table where
  header : List PyStr
  rows : List (List PyStr)
deriving DecidableEq

/-- Value of column `c` in row `r` of a table with columns `header` (empty
text when the column is missing, which the source never exercises). -/
def colAt (header : List PyStr) (r : List PyStr) (c : PyStr) : PyStr :=
  match header.findIdx? (fun x => decide (x = c)) with
  | some i => r.getD i []
  | none => []

/-- Embeds lines 114-116: the provider-column heuristic of the ambulance
fetcher — first column containing "provider" but not "code", else first
column containing "organisation". -/
def amb_prov_col (cols : List PyStr) : Option PyStr :=
  match cols.find? (fun c => containsB (lowerB c) (codes "provider") &&
      !(containsB (lowerB c) (codes "code"))) with
  | some c => some c
  | none => cols.find? (fun c => containsB (lowerB c) (codes "organisation"))

/-- Embeds line 130: the columns of the ambulance table that look date-like. -/
def amb_time_cols (cols : List PyStr) : List PyStr :=
  cols.filter (fun c => containsB (lowerB c) (codes "week ending") ||
    containsB (lowerB c) (codes "week end") || containsB (lowerB c) (codes "date"))

/-- Model of `df.melt(id_vars=["PROVIDER"], var_name="metric_or_date",
value_name="value")` (line 132): long format, one output row per non-id
column and input row, column-major as pandas produces it. -/
def meltProvider (header : List PyStr) (rows : List (List PyStr)) : Table :=
  ⟨[codes "PROVIDER", codes "metric_or_date", codes "value"],
    ((header.filter (fun c => !(decide (c = codes "PROVIDER")))).map
      (fun c => rows.map (fun r =>
        [colAt header r (codes "PROVIDER"), c, colAt header r c]))).flatten⟩

/-- Embeds lines 113-136 of `fetch_ambulance_handover_timeseries`: resolve
the provider column (raising when absent), append the PROVIDER column,
filter by peers, and melt to long format when date-like columns are
present. -/
def amb_process (t : Table) (peers : List PyStr) : Except PyStr Table :=
  match amb_prov_col t.header with
  | none => Except.error (codes "Provider column not found in Ambulance handover file.")
  | some pc =>
    let header1 := t.header ++ [codes "PROVIDER"]
    let rows1 := t.rows.map (fun r => r ++ [colAt t.header r pc])
    let rows2 :=
      if peers.isEmpty then rows1
      else rows1.filter (fun r => peers.any (fun p =>
        containsB (lowerB (colAt header1 r (codes "PROVIDER"))) (lowerB p)))
    if (amb_time_cols header1).isEmpty then Except.ok ⟨header1, rows2⟩
    else Except.ok (meltProvider header1 rows2)

/-- Embeds line 111 (and the identical line 153): the first sheet whose name
contains "provider" case-insensitively, else the first sheet.  Python would
raise on an empty workbook (`sheet_names[0]`), modelled as `none`. -/
def selectSheet (names : List PyStr) : Option PyStr :=
  match names.find? (fun s => containsB (lowerB s) (codes "provider")) with
  | some s => some s
  | none => names.head?

/-- Embeds lines 193-195: the first ZIP member whose lowercased name contains
"provider" and ends in ".csv", else the first member. -/
def selectZipMember (names : List PyStr) : Option PyStr :=
  match names.find? (fun n => containsB (lowerB n) (codes "provider") &&
      decide (codes ".csv" <:+ lowerB n)) with
  | some n => some n
  | none => names.head?

def AMB_HANDOVER_URL : PyStr :=
  codes "https://www.england.nhs.uk/statistics/wp-content/uploads/sites/2/2025/03/Web-File-Timeseries-Ambulance-Collection.xlsx"

/-- Embeds `fetch_ambulance_handover_timeseries` (lines 100-136).  The cache
stage (lines 101-108) stores the downloaded bytes verbatim; `xlsxOf` models
`pandas.ExcelFile`, mapping workbook bytes to named sheets. -/
def fetch_ambulance_handover_timeseries (env : PyStr → Bytes)
    (xlsxOf : Bytes → List (PyStr × Table)) (peers : List PyStr) (st : CacheSt) :
    Except PyStr Table × CacheSt :=
  let pr :=
    match readCache st (codes "amb_handover.xlsx") with
    | some b => (b, st)
    | none =>
      let p := download env st AMB_HANDOVER_URL
      (p.1, writeCache p.2 (codes "amb_handover.xlsx") p.1)
  (match selectSheet ((xlsxOf pr.1).map (fun e => e.1)) with
   | none => Except.error (codes "IndexError: list index out of range")
   | some s =>
     match (xlsxOf pr.1).find? (fun e => decide (e.1 = s)) with
     | some e => amb_process e.2 peers
     | none => Except.error (codes "sheet not found"), pr.2)

/-- The hand-curated month-to-URL lookup of `fetch_rtt_full_csv`
(lines 174-179). -/
def rtt_lookup : List (PyStr × PyStr) :=
  [(codes "2025-03", codes "https://www.england.nhs.uk/statistics/wp-content/uploads/sites/2/2025/07/rtt-full-csv-Mar25.zip"),
   (codes "2025-02", codes "https://www.england.nhs.uk/statistics/wp-content/uploads/sites/2/2025/07/rtt-full-csv-Feb25.zip"),
   (codes "2025-01", codes "https://www.england.nhs.uk/statistics/wp-content/uploads/sites/2/2025/02/rtt-full-csv-Jan25.zip"),
   (codes "2024-12", codes "https://www.england.nhs.uk/statistics/wp-content/uploads/sites/2/2025/01/rtt-full-csv-Dec24.zip")]

/-- The fixed message of the unsupported-period error (line 182). -/
def rtt_err_msg : PyStr :=
  codes "Month not in demo lookup; extend the list in fetch_rtt_full_csv."

/-- Embeds `fetch_rtt_full_csv` (lines 171-198): look the month up in the
static table, raising the fixed unsupported-period message when absent;
otherwise read the ZIP from cache or download and cache it verbatim, pick a
member by the name heuristic and parse it.  `zipOf` models `zipfile.ZipFile`,
mapping archive bytes to named members. -/
def fetch_rtt_full_csv (env : PyStr → Bytes)
    (zipOf : Bytes → List (PyStr × Bytes)) (month_label : PyStr) (st : CacheSt) :
    Except PyStr (List (List PyStr)) × CacheSt :=
  match (rtt_lookup.find? (fun e => decide (e.1 = month_label))).map (fun e => e.2) with
  | none => (Except.error rtt_err_msg, st)
  | some url =>
    let key := codes "rtt_" ++ month_label ++ codes ".zip"
    let pr :=
      match readCache st key with
      | none =>
        let p := download env st url
        (p.1, writeCache p.2 key p.1)
      | some b => (b, st)
    (match selectZipMember ((zipOf pr.1).map (fun e => e.1)) with
     | none => Except.error (codes "IndexError: list index out of range")
     | some n =>
       match (zipOf pr.1).find? (fun e => decide (e.1 = n)) with
       | some e => Except.ok (readCsvModel e.2)
       | none => Except.error (codes "member not found"), pr.2)

/-- Embeds lines 155-157: the provider-column heuristic of the acute
discharge fetcher — the first column containing "provider" but not "code",
with no fallback. -/
def acute_prov_col (cols : List PyStr) : Option PyStr :=
  cols.find? (fun c => containsB (lowerB c) (codes "provider") &&
    !(containsB (lowerB c) (codes "code")))

/-- Embeds lines 155-166 of `fetch_acute_discharge_timeseries`: resolve the
provider column (raising when absent), append PROVIDER, filter by peers and
return the table. -/
def acute_process (t : Table) (peers : List PyStr) : Except PyStr Table :=
  match acute_prov_col t.header with
  | none => Except.error (codes "Provider column not found in Acute discharge file.")
  | some pc =>
    let header1 := t.header ++ [codes "PROVIDER"]
    let rows1 := t.rows.map (fun r => r ++ [colAt t.header r pc])
    let rows2 :=
      if peers.isEmpty then rows1
      else rows1.filter (fun r => peers.any (fun p =>
        containsB (lowerB (colAt header1 r (codes "PROVIDER"))) (lowerB p)))
    Except.ok ⟨header1, rows2⟩

def ACUTE_DISCHARGE_URL : PyStr :=
  codes "https://www.england.nhs.uk/statistics/wp-content/uploads/sites/2/2025/03/Web-File-Timeseries-Acute-Discharge-SitRep.xlsx"

/-- Embeds `fetch_acute_discharge_timeseries` (lines 143-166).  The cache
stage (lines 144-151) stores the downloaded bytes verbatim; `xlsxOf` models
`pandas.ExcelFile`. -/
def fetch_acute_discharge_timeseries (env : PyStr → Bytes)
    (xlsxOf : Bytes → List (PyStr × Table)) (peers : List PyStr) (st : CacheSt) :
    Except PyStr Table × CacheSt :=
  let pr :=
    match readCache st (codes "acute_discharge.xlsx") with
    | some b => (b, st)
    | none =>
      let p := download env st ACUTE_DISCHARGE_URL
      (p.1, writeCache p.2 (codes "acute_discharge.xlsx") p.1)
  (match selectSheet ((xlsxOf pr.1).map (fun e => e.1)) with
   | none => Except.error (codes "IndexError: list index out of range")
   | some s =>
     match (xlsxOf pr.1).find? (fun e => decide (e.1 = s)) with
     | some e => acute_process e.2 peers
     | none => Except.error (codes "sheet not found"), pr.2)

/-- The provider-column synonym list of the A&E fetcher (line 63). -/
def ae_synonyms : List PyStr :=
  [codes "provider code", codes "provider", codes "provider_name", codes "organisation"]

/-- Embeds lines 63-70: exact case-insensitive synonym match, then the
"Provider Name" fallback column, else no provider column. -/
def ae_prov_col (cols : List PyStr) : Option PyStr :=
  match cols.find? (fun c => decide (lowerB c ∈ ae_synonyms)) with
  | some c => some c
  | none =>
    if codes "Provider Name" ∈ cols then some (codes "Provider Name") else none

/-- The metric keyword fragments of line 89. -/
def ae_keywords : List PyStr :=
  [codes "attend", codes "within 4", codes "emergency admissions", codes "% within 4"]

/-- Embeds lines 88-90: keep the columns whose lowercased name contains one
of the keyword fragments. -/
def ae_wanted (cols : List PyStr) : List PyStr :=
  cols.filter (fun c => ae_keywords.any (fun k => containsB (lowerB c) (lowerB k)))

/-- Embeds lines 62-93 of `fetch_ae_monthly_provider`, after the monthly
frames are concatenated (each month's `period` column having been attached on
line 58): resolve the provider column (raising when absent), append PROVIDER,
filter by peers, and project onto `period`, `PROVIDER` and the
keyword-matched metric columns. -/
def ae_process (t : Table) (peers : List PyStr) : Except PyStr Table :=
  match ae_prov_col t.header with
  | none => Except.error (codes "Provider column not found in A&E monthly file.")
  | some pc =>
    let header1 := t.header ++ [codes "PROVIDER"]
    let rows1 := t.rows.map (fun r => r ++ [colAt t.header r pc])
    let rows2 :=
      if peers.isEmpty then rows1
      else rows1.filter (fun r => peers.any (fun p =>
        containsB (lowerB (colAt header1 r (codes "PROVIDER"))) (stripB (lowerB p))))
    let cs := [codes "period", codes "PROVIDER"] ++ ae_wanted header1
    Except.ok ⟨cs, rows2.map (fun r => cs.map (fun c => colAt header1 r c))⟩

/-- The hand-curated month list of `fetch_ae_monthly_provider`
(lines 40-46). -/
def AEM_MONTH_FILES : List (PyStr × PyStr) :=
  [(codes "2025-03", codes "https://www.england.nhs.uk/statistics/wp-content/uploads/sites/2/2025/04/A-E-Monthly-March-2025.csv"),
   (codes "2025-02", codes "https://www.england.nhs.uk/statistics/wp-content/uploads/sites/2/2025/05/A-E-Monthly-February-2025-1.csv"),
   (codes "2025-01", codes "https://www.england.nhs.uk/statistics/wp-content/uploads/sites/2/2025/02/A-E-Monthly-January-2025.csv"),
   (codes "2024-12", codes "https://www.england.nhs.uk/statistics/wp-content/uploads/sites/2/2025/01/A-E-Monthly-December-2024.csv")]

/-- Embeds lines 50-57, one iteration of the caching loop of
`fetch_ae_monthly_provider`: read the cached month CSV if present, otherwise
download, parse, and write the re-serialised parse (`df.to_csv`) to the
cache; return the month's parsed frame. -/
def ae_month_frame (env : PyStr → Bytes) (st : CacheSt) (label url : PyStr) :
    List (List PyStr) × CacheSt :=
  match readCache st (codes "ae_" ++ label ++ codes ".csv") with
  | some b => (readCsvModel b, st)
  | none =>
    let p := download env st url
    let df := readCsvModel p.1
    (df, writeCache p.2 (codes "ae_" ++ label ++ codes ".csv") (toCsvModel df))

/-- The caching loop of lines 49-59, threading the cache state through the
months in order. -/
def ae_fetch_frames (env : PyStr → Bytes) :
    List (PyStr × PyStr) → CacheSt → List (PyStr × List (List PyStr)) × CacheSt
  | [], st => ([], st)
  | e :: ms, st =>
    ((e.1, (ae_month_frame env st e.1 e.2).1) ::
        (ae_fetch_frames env ms (ae_month_frame env st e.1 e.2).2).1,
      (ae_fetch_frames env ms (ae_month_frame env st e.1 e.2).2).2)

/-- A parsed CSV as a table: `read_csv` takes the first line as the column
names and the rest as data rows. -/
def tableOfCsv (t : List (List PyStr)) : Table := ⟨t.headD [], t.tail⟩

/-- Model of `df["period"] = label` (line 58): a `period` column appended,
holding the month label in every row. -/
def addPeriod (label : PyStr) (t : Table) : Table :=
  ⟨t.header ++ [codes "period"], t.rows.map (fun r => r ++ [label])⟩

/-- Model of `pd.concat(frames, ignore_index=True)` (line 60) on the monthly
frames, whose columns agree month to month: stack the rows. -/
def ae_concat (frames : List (PyStr × List (List PyStr))) : Table :=
  let ts := frames.map (fun e => addPeriod e.1 (tableOfCsv e.2))
  ⟨(ts.headD ⟨[], []⟩).header, (ts.map (fun t => t.rows)).flatten⟩

/-- Embeds `fetch_ae_monthly_provider` (lines 48-93): run the caching loop
over the month list, attach the period columns and concatenate, then
normalise, filter and project via `ae_process`. -/
def fetch_ae_monthly_provider (env : PyStr → Bytes) (peers : List PyStr)
    (st : CacheSt) : Except PyStr Table × CacheSt :=
  (ae_process (ae_concat (ae_fetch_frames env AEM_MONTH_FILES st).1) peers,
    (ae_fetch_frames env AEM_MONTH_FILES st).2)


lemma splitByte_ne_nil (c : Nat) (b : Bytes) : splitByte c b ≠ [] := by
  cases b with
  | nil => simp [splitByte]
  | cons x xs =>
    simp only [splitByte]
    split_ifs with h
    · simp
    · cases hs : splitByte c xs with
      | nil => simp
      | cons p ps => simp

lemma joinWith_cons (c : Nat) (p : Bytes) (ps : List Bytes) (h : ps ≠ []) :
    joinWith c (p :: ps) = p ++ c :: joinWith c ps := by
  cases ps with
  | nil => exact absurd rfl h
  | cons q qs => rfl

lemma joinWith_cons_head (c x : Nat) (p : Bytes) (ps : List Bytes) :
    joinWith c ((x :: p) :: ps) = x :: joinWith c (p :: ps) := by
  cases ps with
  | nil => rfl
  | cons q qs => rfl

lemma joinWith_splitByte (c : Nat) (b : Bytes) : joinWith c (splitByte c b) = b := by
  induction b with
  | nil => rfl
  | cons x xs ih =>
    simp only [splitByte]
    split_ifs with h
    · rw [joinWith_cons c [] _ (splitByte_ne_nil c xs), List.nil_append, ih, h]
    · cases hs : splitByte c xs with
      | nil => exact absurd hs (splitByte_ne_nil c xs)
      | cons p ps =>
        rw [hs] at ih
        show joinWith c ((x :: p) :: ps) = x :: xs
        rw [joinWith_cons_head, ih]

lemma splitByte_append_cons (c : Nat) (l rest : Bytes) (hl : c ∉ l) :
    splitByte c (l ++ c :: rest) = l :: splitByte c rest := by
  induction l with
  | nil => simp [splitByte]
  | cons y ys ih =>
    have hys := ih (fun hm => hl (List.mem_cons_of_mem _ hm))
    have hy : ¬ (y = c) := fun h => hl (by rw [← h]; exact List.mem_cons_self y ys)
    simp only [List.cons_append, splitByte, if_neg hy]
    rw [show (ys.append (c :: rest)) = ys ++ c :: rest from rfl, hys]

lemma not_mem_of_mem_splitByte (c : Nat) (b : Bytes) :
    ∀ p ∈ splitByte c b, c ∉ p := by
  induction b with
  | nil =>
    intro p hp
    simp [splitByte] at hp
    simp [hp]
  | cons x xs ih =>
    intro p hp
    simp only [splitByte] at hp
    split_ifs at hp with h
    · rcases List.mem_cons.mp hp with h1 | h2
      · simp [h1]
      · exact ih p h2
    · cases hs : splitByte c xs with
      | nil => exact absurd hs (splitByte_ne_nil c xs)
      | cons q qs =>
        rw [hs] at hp
        rcases List.mem_cons.mp hp with h1 | h2
        · subst h1
          intro hm
          rcases List.mem_cons.mp hm with h3 | h4
          · exact h h3.symm
          · have hq : q ∈ splitByte c xs := by rw [hs]; exact List.mem_cons_self q qs
            exact ih q hq h4
        · have hp' : p ∈ splitByte c xs := by rw [hs]; exact List.mem_cons_of_mem q h2
          exact ih p hp'

lemma splitByte_flatten (ls : List Bytes) (h : ∀ l ∈ ls, (10 : Nat) ∉ l) :
    splitByte 10 ((ls.map (fun l => l ++ [10])).flatten) = ls ++ [[]] := by
  induction ls with
  | nil => rfl
  | cons l ls ih =>
    simp only [List.map_cons, List.flatten_cons]
    rw [List.append_assoc, List.singleton_append,
      splitByte_append_cons 10 l _ (h l (List.mem_cons_self l ls)),
      ih (fun q hq => h q (List.mem_cons_of_mem _ hq)), List.cons_append]

lemma csvLines_subset (b : Bytes) : ∀ l ∈ csvLines b, l ∈ splitByte 10 b := by
  intro l hl
  unfold csvLines at hl
  split_ifs at hl with h
  · exact (List.dropLast_sublist _).subset hl
  · exact hl

lemma csvLines_of_flatten (ls : List Bytes) (h : ∀ l ∈ ls, (10 : Nat) ∉ l) :
    csvLines ((ls.map (fun l => l ++ [10])).flatten) = ls := by
  unfold csvLines
  rw [splitByte_flatten ls h, List.getLast?_concat, if_pos rfl, List.dropLast_concat]

lemma readCsv_roundTrip (b : Bytes) :
    readCsvModel (toCsvModel (readCsvModel b)) = readCsvModel b := by
  have h10 : ∀ l ∈ csvLines b, (10 : Nat) ∉ l := fun l hl =>
    not_mem_of_mem_splitByte 10 b l (csvLines_subset b l hl)
  unfold readCsvModel toCsvModel
  rw [List.map_map]
  have hmap : (csvLines b).map ((fun r => joinWith 44 r ++ [10]) ∘ splitByte 44) =
      (csvLines b).map (fun l => l ++ [10]) :=
    List.map_congr_left (fun l _ => by
      simp only [Function.comp_apply, joinWith_splitByte])
  rw [hmap, csvLines_of_flatten _ h10]

lemma readCache_writeCache (st : CacheSt) (k : PyStr) (v : Bytes) :
    readCache (writeCache st k v) k = some v := by
  simp [readCache, writeCache, List.find?_cons]

/-- Environment for the C3 counterexample: every URL serves the two-line CSV
body "a\n1" with no trailing newline. -/
def c3_env : PyStr → Bytes := fun _ => codes "a\n1"

/-- C3 as stated is false: `fetch_kh03_latest` caches `df.to_csv(...)`, a
re-serialisation of the parse, not the response bytes.  For the response
body "a\n1" the cached file is "a\n1\n", which differs from the body. -/
theorem c3_counterexample :
    readCache (fetch_kh03_latest c3_env initSt).2 (codes "kh03_q4_2024_25.csv") =
      some (codes "a\n1\n") ∧
    codes "a\n1\n" ≠ c3_env KH03_Q4_2024_25_CSV := by
  constructor
  · decide
  · decide

lemma kh03_reinvoke (env env2 : PyStr → Bytes) (st : CacheSt) :
    (fetch_kh03_latest env2 (fetch_kh03_latest env st).2).1 =
      (fetch_kh03_latest env st).1 ∧
    (fetch_kh03_latest env2 (fetch_kh03_latest env st).2).2.netCalls =
      (fetch_kh03_latest env st).2.netCalls := by
  cases hc : readCache st (codes "kh03_q4_2024_25.csv") with
  | some b => simp [fetch_kh03_latest, hc]
  | none =>
    simp [fetch_kh03_latest, hc, readCache_writeCache, readCsv_roundTrip]

lemma amb_reinvoke (env env2 : PyStr → Bytes)
    (xlsxOf : Bytes → List (PyStr × Table)) (peers : List PyStr) (st : CacheSt) :
    (fetch_ambulance_handover_timeseries env2 xlsxOf peers
        (fetch_ambulance_handover_timeseries env xlsxOf peers st).2).1 =
      (fetch_ambulance_handover_timeseries env xlsxOf peers st).1 ∧
    (fetch_ambulance_handover_timeseries env2 xlsxOf peers
        (fetch_ambulance_handover_timeseries env xlsxOf peers st).2).2.netCalls =
      (fetch_ambulance_handover_timeseries env xlsxOf peers st).2.netCalls := by
  cases hc : readCache st (codes "amb_handover.xlsx") with
  | some b => simp [fetch_ambulance_handover_timeseries, hc]
  | none =>
    simp [fetch_ambulance_handover_timeseries, hc, readCache_writeCache]

lemma readCache_writeCache_ne (st : CacheSt) (k k2 : PyStr) (v : Bytes)
    (hne : k2 ≠ k) : readCache (writeCache st k v) k2 = readCache st k2 := by
  unfold readCache writeCache
  rw [List.find?_cons_of_neg _ (by simpa using Ne.symm hne)]

lemma acute_reinvoke (env env2 : PyStr → Bytes)
    (xlsxOf : Bytes → List (PyStr × Table)) (peers : List PyStr) (st : CacheSt) :
    (fetch_acute_discharge_timeseries env2 xlsxOf peers
        (fetch_acute_discharge_timeseries env xlsxOf peers st).2).1 =
      (fetch_acute_discharge_timeseries env xlsxOf peers st).1 ∧
    (fetch_acute_discharge_timeseries env2 xlsxOf peers
        (fetch_acute_discharge_timeseries env xlsxOf peers st).2).2.netCalls =
      (fetch_acute_discharge_timeseries env xlsxOf peers st).2.netCalls := by
  cases hc : readCache st (codes "acute_discharge.xlsx") with
  | some b => simp [fetch_acute_discharge_timeseries, hc]
  | none =>
    simp [fetch_acute_discharge_timeseries, hc, readCache_writeCache]

lemma rtt_reinvoke (env env2 : PyStr → Bytes)
    (zipOf : Bytes → List (PyStr × Bytes)) (m : PyStr) (st : CacheSt) :
    (fetch_rtt_full_csv env2 zipOf m (fetch_rtt_full_csv env zipOf m st).2).1 =
      (fetch_rtt_full_csv env zipOf m st).1 ∧
    (fetch_rtt_full_csv env2 zipOf m
        (fetch_rtt_full_csv env zipOf m st).2).2.netCalls =
      (fetch_rtt_full_csv env zipOf m st).2.netCalls := by
  cases hl : (rtt_lookup.find? (fun e => decide (e.1 = m))).map (fun e => e.2) with
  | none => simp [fetch_rtt_full_csv, hl]
  | some url =>
    cases hc : readCache st (codes "rtt_" ++ m ++ codes ".zip") with
    | some b =>
      unfold fetch_rtt_full_csv
      rw [hl]
      dsimp only
      rw [hc]
      dsimp only
      rw [hc]
      dsimp only
      exact ⟨rfl, rfl⟩
    | none =>
      unfold fetch_rtt_full_csv
      rw [hl]
      dsimp only
      rw [hc]
      dsimp only
      rw [readCache_writeCache]
      dsimp only
      exact ⟨rfl, rfl⟩

lemma readCache_ae_month_frame (env : PyStr → Bytes) (st : CacheSt)
    (l u k : PyStr) (v : Bytes) (hk : readCache st k = some v) :
    readCache (ae_month_frame env st l u).2 k = some v := by
  unfold ae_month_frame
  cases hc : readCache st (codes "ae_" ++ l ++ codes ".csv") with
  | some b => exact hk
  | none =>
    dsimp only
    rw [readCache_writeCache_ne]
    · exact hk
    · intro he
      rw [he, hc] at hk
      exact Option.noConfusion hk

lemma readCache_ae_fetch_frames (env : PyStr → Bytes) (ms : List (PyStr × PyStr))
    (st : CacheSt) (k : PyStr) (v : Bytes) (hk : readCache st k = some v) :
    readCache (ae_fetch_frames env ms st).2 k = some v := by
  induction ms generalizing st with
  | nil => exact hk
  | cons e ms ih =>
    show readCache
      (ae_fetch_frames env ms (ae_month_frame env st e.1 e.2).2).2 k = some v
    exact ih _ (readCache_ae_month_frame env st e.1 e.2 k v hk)

lemma ae_month_frame_hit (env : PyStr → Bytes) (st : CacheSt) (l u : PyStr)
    (w : Bytes) (hw : readCache st (codes "ae_" ++ l ++ codes ".csv") = some w) :
    ae_month_frame env st l u = (readCsvModel w, st) := by
  unfold ae_month_frame
  rw [hw]

lemma ae_month_frame_cached (env : PyStr → Bytes) (st : CacheSt) (l u : PyStr) :
    ∃ w, readCache (ae_month_frame env st l u).2 (codes "ae_" ++ l ++ codes ".csv") =
        some w ∧ readCsvModel w = (ae_month_frame env st l u).1 := by
  unfold ae_month_frame
  cases hc : readCache st (codes "ae_" ++ l ++ codes ".csv") with
  | some b => exact ⟨b, hc, rfl⟩
  | none =>
    dsimp only
    exact ⟨toCsvModel (readCsvModel (env u)), readCache_writeCache _ _ _,
      readCsv_roundTrip (env u)⟩

lemma ae_frames_reinvoke (env env2 : PyStr → Bytes) (ms : List (PyStr × PyStr))
    (st : CacheSt) :
    ae_fetch_frames env2 ms (ae_fetch_frames env ms st).2 =
      ((ae_fetch_frames env ms st).1, (ae_fetch_frames env ms st).2) := by
  induction ms generalizing st with
  | nil => rfl
  | cons e ms ih =>
    obtain ⟨w, hw, hwp⟩ := ae_month_frame_cached env st e.1 e.2
    have hq : readCache
        (ae_fetch_frames env ms (ae_month_frame env st e.1 e.2).2).2
        (codes "ae_" ++ e.1 ++ codes ".csv") = some w :=
      readCache_ae_fetch_frames env ms _ _ _ hw
    have hp2 := ae_month_frame_hit env2
      (ae_fetch_frames env ms (ae_month_frame env st e.1 e.2).2).2 e.1 e.2 w hq
    rw [hwp] at hp2
    simp only [ae_fetch_frames]
    rw [hp2]
    dsimp only
    rw [ih ((ae_month_frame env st e.1 e.2).2)]

lemma ae_reinvoke (env env2 : PyStr → Bytes) (peers : List PyStr) (st : CacheSt) :
    (fetch_ae_monthly_provider env2 peers
        (fetch_ae_monthly_provider env peers st).2).1 =
      (fetch_ae_monthly_provider env peers st).1 ∧
    (fetch_ae_monthly_provider env2 peers
        (fetch_ae_monthly_provider env peers st).2).2.netCalls =
      (fetch_ae_monthly_provider env peers st).2.netCalls := by
  unfold fetch_ae_monthly_provider
  dsimp only
  rw [ae_frames_reinvoke env env2 AEM_MONTH_FILES st]
  exact ⟨rfl, rfl⟩

/-- C3 amended: the three workbook/ZIP fetchers (ambulance handover, acute
discharge, RTT) cache the downloaded bytes verbatim, while the CSV fetchers
(each month of the A&E loop, and KH03) cache the re-serialised parse
(`df.to_csv`) of the response, which need not equal the response body; and
for every fetcher a re-invocation — whatever the network would now return —
issues no further network call and returns the same content as the first
call. -/
theorem c3_cache_amended (env env2 : PyStr → Bytes)
    (xlsxOf : Bytes → List (PyStr × Table)) (zipOf : Bytes → List (PyStr × Bytes))
    (peers : List PyStr) (st : CacheSt) :
    (readCache st (codes "amb_handover.xlsx") = none →
       readCache (fetch_ambulance_handover_timeseries env xlsxOf peers st).2
         (codes "amb_handover.xlsx") = some (env AMB_HANDOVER_URL)) ∧
    (readCache st (codes "acute_discharge.xlsx") = none →
       readCache (fetch_acute_discharge_timeseries env xlsxOf peers st).2
         (codes "acute_discharge.xlsx") = some (env ACUTE_DISCHARGE_URL)) ∧
    (∀ m url,
       (rtt_lookup.find? (fun e => decide (e.1 = m))).map (fun e => e.2) = some url →
       readCache st (codes "rtt_" ++ m ++ codes ".zip") = none →
       readCache (fetch_rtt_full_csv env zipOf m st).2
         (codes "rtt_" ++ m ++ codes ".zip") = some (env url)) ∧
    (∀ label url, readCache st (codes "ae_" ++ label ++ codes ".csv") = none →
       readCache (ae_month_frame env st label url).2
         (codes "ae_" ++ label ++ codes ".csv") =
         some (toCsvModel (readCsvModel (env url)))) ∧
    (readCache st (codes "kh03_q4_2024_25.csv") = none →
       readCache (fetch_kh03_latest env st).2 (codes "kh03_q4_2024_25.csv") =
         some (toCsvModel (readCsvModel (env KH03_Q4_2024_25_CSV)))) ∧
    (∀ st2 : CacheSt,
       (fetch_kh03_latest env2 (fetch_kh03_latest env st2).2).1 =
           (fetch_kh03_latest env st2).1 ∧
       (fetch_kh03_latest env2 (fetch_kh03_latest env st2).2).2.netCalls =
           (fetch_kh03_latest env st2).2.netCalls) ∧
    (∀ st2 : CacheSt,
       (fetch_ambulance_handover_timeseries env2 xlsxOf peers
           (fetch_ambulance_handover_timeseries env xlsxOf peers st2).2).1 =
         (fetch_ambulance_handover_timeseries env xlsxOf peers st2).1 ∧
       (fetch_ambulance_handover_timeseries env2 xlsxOf peers
           (fetch_ambulance_handover_timeseries env xlsxOf peers st2).2).2.netCalls =
         (fetch_ambulance_handover_timeseries env xlsxOf peers st2).2.netCalls) ∧
    (∀ st2 : CacheSt,
       (fetch_acute_discharge_timeseries env2 xlsxOf peers
           (fetch_acute_discharge_timeseries env xlsxOf peers st2).2).1 =
         (fetch_acute_discharge_timeseries env xlsxOf peers st2).1 ∧
       (fetch_acute_discharge_timeseries env2 xlsxOf peers
           (fetch_acute_discharge_timeseries env xlsxOf peers st2).2).2.netCalls =
         (fetch_acute_discharge_timeseries env xlsxOf peers st2).2.netCalls) ∧
    (∀ (st2 : CacheSt) (m : PyStr),
       (fetch_rtt_full_csv env2 zipOf m (fetch_rtt_full_csv env zipOf m st2).2).1 =
         (fetch_rtt_full_csv env zipOf m st2).1 ∧
       (fetch_rtt_full_csv env2 zipOf m
           (fetch_rtt_full_csv env zipOf m st2).2).2.netCalls =
         (fetch_rtt_full_csv env zipOf m st2).2.netCalls) ∧
    (∀ st2 : CacheSt,
       (fetch_ae_monthly_provider env2 peers
           (fetch_ae_monthly_provider env peers st2).2).1 =
         (fetch_ae_monthly_provider env peers st2).1 ∧
       (fetch_ae_monthly_provider env2 peers
           (fetch_ae_monthly_provider env peers st2).2).2.netCalls =
         (fetch_ae_monthly_provider env peers st2).2.netCalls) := by
  refine ⟨fun h => ?_, fun h => ?_, fun m url hl h => ?_, fun label url h => ?_,
    fun h => ?_, fun st2 => kh03_reinvoke env env2 st2,
    fun st2 => amb_reinvoke env env2 xlsxOf peers st2,
    fun st2 => acute_reinvoke env env2 xlsxOf peers st2,
    fun st2 m => rtt_reinvoke env env2 zipOf m st2,
    fun st2 => ae_reinvoke env env2 peers st2⟩
  · simp [fetch_ambulance_handover_timeseries, h, readCache_writeCache, download]
  · simp [fetch_acute_discharge_timeseries, h, readCache_writeCache, download]
  · unfold fetch_rtt_full_csv
    rw [hl]
    dsimp only
    rw [h]
    dsimp only
    rw [readCache_writeCache]
    rfl
  · unfold ae_month_frame
    rw [h]
    dsimp only
    rw [readCache_writeCache]
    rfl
  · simp [fetch_kh03_latest, h, readCache_writeCache, download]

/-- C3 amended, witnessed at the empty start-up state and the constant
environment of the counterexample: the five cache-content conjuncts at their
concrete keys. -/
theorem c3_cache_amended_witness :
    readCache (fetch_ambulance_handover_timeseries c3_env (fun _ => [])
        [] initSt).2 (codes "amb_handover.xlsx") = some (c3_env AMB_HANDOVER_URL) ∧
    readCache (fetch_acute_discharge_timeseries c3_env (fun _ => [])
        [] initSt).2 (codes "acute_discharge.xlsx") =
      some (c3_env ACUTE_DISCHARGE_URL) ∧
    readCache (fetch_rtt_full_csv c3_env (fun _ => []) (codes "2025-03") initSt).2
        (codes "rtt_" ++ codes "2025-03" ++ codes ".zip") =
      some (c3_env (codes "https://www.england.nhs.uk/statistics/wp-content/uploads/sites/2/2025/07/rtt-full-csv-Mar25.zip")) ∧
    readCache (ae_month_frame c3_env initSt (codes "2025-03")
        (codes "https://www.england.nhs.uk/statistics/wp-content/uploads/sites/2/2025/04/A-E-Monthly-March-2025.csv")).2
        (codes "ae_" ++ codes "2025-03" ++ codes ".csv") =
      some (toCsvModel (readCsvModel (c3_env
        (codes "https://www.england.nhs.uk/statistics/wp-content/uploads/sites/2/2025/04/A-E-Monthly-March-2025.csv")))) ∧
    readCache (fetch_kh03_latest c3_env initSt).2 (codes "kh03_q4_2024_25.csv") =
      some (toCsvModel (readCsvModel (c3_env KH03_Q4_2024_25_CSV))) :=
  have h := c3_cache_amended c3_env c3_env (fun _ => []) (fun _ => []) [] initSt
  ⟨h.1 (by decide), h.2.1 (by decide),
   h.2.2.1 (codes "2025-03")
     (codes "https://www.england.nhs.uk/statistics/wp-content/uploads/sites/2/2025/07/rtt-full-csv-Mar25.zip")
     (by decide) (by decide),
   h.2.2.2.1 (codes "2025-03")
     (codes "https://www.england.nhs.uk/statistics/wp-content/uploads/sites/2/2025/04/A-E-Monthly-March-2025.csv")
     (by decide),
   h.2.2.2.2.1 (by decide)⟩

/-- Environment and archive model for the C5 counterexample. -/
def c5_env : PyStr → Bytes := fun _ => []

/-- Archive model for the C5 counterexample: no members. -/
def c5_zip : Bytes → List (PyStr × Bytes) := fun _ => []

/-- C5 as stated is false in one part: requesting "2099-01" fails immediately
with the unsupported-period error and makes no network call (the state is
untouched), but the fixed message does not name the unsupported value. -/
theorem c5_counterexample :
    fetch_rtt_full_csv c5_env c5_zip (codes "2099-01") initSt =
      (Except.error rtt_err_msg, initSt) ∧
    ¬ (codes "2099-01" <:+: rtt_err_msg) ∧
    initSt.netCalls = 0 := by
  refine ⟨rfl, by decide, rfl⟩

/-- C5 amended: for every month label absent from the static lookup,
`fetch_rtt_full_csv` fails immediately with the fixed unsupported-period
message — which does not name the value — and the state, hence the network
call count, is unchanged. -/
theorem c5_unsupported_period_amended (env : PyStr → Bytes)
    (zipOf : Bytes → List (PyStr × Bytes)) (m : PyStr) (st : CacheSt)
    (habs : rtt_lookup.find? (fun e => decide (e.1 = m)) = none) :
    fetch_rtt_full_csv env zipOf m st = (Except.error rtt_err_msg, st) := by
  unfold fetch_rtt_full_csv
  rw [habs]
  rfl

/-- C5 amended, witnessed at the month "2099-01". -/
theorem c5_unsupported_period_amended_witness :
    fetch_rtt_full_csv c5_env c5_zip (codes "2099-01") initSt =
      (Except.error rtt_err_msg, initSt) :=
  c5_unsupported_period_amended c5_env c5_zip (codes "2099-01") initSt (by decide)

lemma find?_eq_head_filter {α : Type} (p : α → Bool) (l : List α) :
    l.find? p = (l.filter p).head? := by
  induction l with
  | nil => rfl
  | cons x xs ih =>
    cases h : p x with
    | true =>
      rw [List.find?_cons_of_pos _ h, List.filter_cons_of_pos h, List.head?_cons]
    | false =>
      rw [List.find?_cons_of_neg _ (by simp [h]), List.filter_cons_of_neg (by simp [h]), ih]

/-- C7: the sheet chosen is the first sheet whose lowercased name contains
"provider", else the first sheet; the ZIP member chosen is the first member
whose lowercased name contains "provider" and ends in ".csv", else the first
member. -/
theorem c7_selection_heuristics (names : List PyStr) :
    (names.filter (fun s => containsB (lowerB s) (codes "provider")) ≠ [] →
       selectSheet names =
         (names.filter (fun s => containsB (lowerB s) (codes "provider"))).head?) ∧
    (names.filter (fun s => containsB (lowerB s) (codes "provider")) = [] →
       selectSheet names = names.head?) ∧
    (names.filter (fun n => containsB (lowerB n) (codes "provider") &&
         decide (codes ".csv" <:+ lowerB n)) ≠ [] →
       selectZipMember names =
         (names.filter (fun n => containsB (lowerB n) (codes "provider") &&
           decide (codes ".csv" <:+ lowerB n))).head?) ∧
    (names.filter (fun n => containsB (lowerB n) (codes "provider") &&
         decide (codes ".csv" <:+ lowerB n)) = [] →
       selectZipMember names = names.head?) := by
  refine ⟨fun hne => ?_, fun hnil => ?_, fun hne => ?_, fun hnil => ?_⟩
  · unfold selectSheet
    rw [find?_eq_head_filter]
    cases hf : names.filter (fun s => containsB (lowerB s) (codes "provider")) with
    | nil => exact absurd hf hne
    | cons a l => rfl
  · unfold selectSheet
    rw [find?_eq_head_filter, hnil]
    rfl
  · unfold selectZipMember
    rw [find?_eq_head_filter]
    cases hf : names.filter (fun n => containsB (lowerB n) (codes "provider") &&
        decide (codes ".csv" <:+ lowerB n)) with
    | nil => exact absurd hf hne
    | cons a l => rfl
  · unfold selectZipMember
    rw [find?_eq_head_filter, hnil]
    rfl

/-- C7, witnessed on concrete sheet and member name lists, in both the
matching and the fallback case. -/
theorem c7_selection_heuristics_witness :
    selectSheet [codes "Summary", codes "By Provider"] =
      (([codes "Summary", codes "By Provider"] : List PyStr).filter
        (fun s => containsB (lowerB s) (codes "provider"))).head? ∧
    selectSheet [codes "Notes"] = ([codes "Notes"] : List PyStr).head? ∧
    selectZipMember [codes "readme.txt", codes "RTT-Provider-Data.csv"] =
      (([codes "readme.txt", codes "RTT-Provider-Data.csv"] : List PyStr).filter
        (fun n => containsB (lowerB n) (codes "provider") &&
          decide (codes ".csv" <:+ lowerB n))).head? ∧
    selectZipMember [codes "data.bin"] = ([codes "data.bin"] : List PyStr).head? :=
  ⟨(c7_selection_heuristics _).1 (by decide),
   (c7_selection_heuristics _).2.1 (by decide),
   (c7_selection_heuristics _).2.2.1 (by decide),
   (c7_selection_heuristics _).2.2.2 (by decide)⟩

/-- Environment for the C6 counterexample: the KH03 URL serves a CSV with
columns `a,b` and no provider column. -/
def c6_env : PyStr → Bytes := fun _ => codes "a,b\n1,2"

/-- C6 as stated is false: `fetch_kh03_latest` performs no normalisation.
On a file with columns `a,b` it returns successfully — it cannot raise — a
table whose header row exposes neither a PROVIDER nor a period field. -/
theorem c6_counterexample :
    (fetch_kh03_latest c6_env initSt).1 =
      [[codes "a", codes "b"], [codes "1", codes "2"]] ∧
    ¬ (codes "PROVIDER" ∈ [codes "a", codes "b"]) ∧
    ¬ (codes "period" ∈ [codes "a", codes "b"]) := by
  refine ⟨by decide, by decide, by decide⟩

/-- C6 amended: the peer-comparison normalisation enforces the invariant —
the ambulance fetcher raises when no column matches its heuristic and on
success exposes PROVIDER; the A&E fetcher on success exposes both period and
PROVIDER — while `fetch_kh03_latest` and `fetch_rtt_full_csv` return the
parsed file as-is, with no PROVIDER or period guarantee. -/
theorem c6_invariant_amended (t : Table) (peers : List PyStr)
    (env : PyStr → Bytes) (st : CacheSt) (b : Bytes)
    (hcache : readCache st (codes "kh03_q4_2024_25.csv") = some b) :
    (amb_prov_col t.header = none →
       amb_process t peers =
         Except.error (codes "Provider column not found in Ambulance handover file.")) ∧
    (∀ out, amb_process t peers = Except.ok out → codes "PROVIDER" ∈ out.header) ∧
    (∀ out, ae_process t peers = Except.ok out →
       codes "PROVIDER" ∈ out.header ∧ codes "period" ∈ out.header) ∧
    (fetch_kh03_latest env st).1 = readCsvModel b ∧
    (∀ (env3 : PyStr → Bytes) (zipOf : Bytes → List (PyStr × Bytes))
       (st3 : CacheSt) (m url n : PyStr) (b2 d : Bytes),
       (rtt_lookup.find? (fun e => decide (e.1 = m))).map (fun e => e.2) = some url →
       readCache st3 (codes "rtt_" ++ m ++ codes ".zip") = some b2 →
       selectZipMember ((zipOf b2).map (fun e => e.1)) = some n →
       (zipOf b2).find? (fun e => decide (e.1 = n)) = some (n, d) →
       fetch_rtt_full_csv env3 zipOf m st3 = (Except.ok (readCsvModel d), st3)) := by
  refine ⟨fun hnone => ?_, fun out hok => ?_, fun out hok => ?_, ?_,
    fun env3 zipOf st3 m url n b2 d hlkp hcb hsel hfind => ?_⟩
  · unfold amb_process
    rw [hnone]
  · unfold amb_process at hok
    cases hp : amb_prov_col t.header with
    | none => rw [hp] at hok; exact Except.noConfusion hok
    | some pc =>
      rw [hp] at hok
      dsimp only at hok
      by_cases htime : (amb_time_cols (t.header ++ [codes "PROVIDER"])).isEmpty = true
      · rw [if_pos htime] at hok
        cases hok
        simp [List.mem_append]
      · rw [if_neg htime] at hok
        cases hok
        simp [meltProvider]
  · unfold ae_process at hok
    cases hp : ae_prov_col t.header with
    | none => rw [hp] at hok; exact Except.noConfusion hok
    | some pc =>
      rw [hp] at hok
      dsimp only at hok
      cases hok
      refine ⟨by simp, by simp⟩
  · unfold fetch_kh03_latest
    rw [hcache]
  · unfold fetch_rtt_full_csv
    rw [hlkp]
    dsimp only
    rw [hcb]
    dsimp only
    rw [hsel]
    dsimp only
    rw [hfind]

/-- Environment for the C6 witness. -/
def c6w_env : PyStr → Bytes := fun _ => []

/-- A state whose cache already holds the KH03 file. -/
def c6w_st : CacheSt := writeCache initSt (codes "kh03_q4_2024_25.csv") (codes "a\n1\n")

/-- Archive model for the C6 witness: one provider CSV member. -/
def c6w_zip : Bytes → List (PyStr × Bytes) :=
  fun _ => [(codes "rtt-provider-march.csv", codes "a,b\n1,2")]

/-- A state whose cache already holds the March RTT archive. -/
def c6w_st2 : CacheSt :=
  writeCache initSt (codes "rtt_" ++ codes "2025-03" ++ codes ".zip") (codes "Z")

/-- C6 amended, witnessed on concrete tables and a concrete cached state. -/
theorem c6_invariant_amended_witness :
    amb_process ⟨[codes "x"], []⟩ [] =
      Except.error (codes "Provider column not found in Ambulance handover file.") ∧
    codes "PROVIDER" ∈
      (⟨[codes "Provider name", codes "PROVIDER"],
        [[codes "X", codes "X"]]⟩ : Table).header ∧
    (codes "PROVIDER" ∈
        (⟨[codes "period", codes "PROVIDER"],
          [[codes "2025-03", codes "X"]]⟩ : Table).header ∧
      codes "period" ∈
        (⟨[codes "period", codes "PROVIDER"],
          [[codes "2025-03", codes "X"]]⟩ : Table).header) ∧
    (fetch_kh03_latest c6w_env c6w_st).1 = readCsvModel (codes "a\n1\n") ∧
    fetch_rtt_full_csv c6w_env c6w_zip (codes "2025-03") c6w_st2 =
      (Except.ok (readCsvModel (codes "a,b\n1,2")), c6w_st2) :=
  have hbase := c6_invariant_amended ⟨[codes "x"], []⟩ [] c6w_env c6w_st
    (codes "a\n1\n") (by decide)
  have h2 := c6_invariant_amended ⟨[codes "Provider name"], [[codes "X"]]⟩ []
    c6w_env c6w_st (codes "a\n1\n") (by decide)
  have h3 := c6_invariant_amended ⟨[codes "period", codes "Provider Name"],
    [[codes "2025-03", codes "X"]]⟩ [] c6w_env c6w_st (codes "a\n1\n") (by decide)
  ⟨hbase.1 (by decide),
   h2.2.1 ⟨[codes "Provider name", codes "PROVIDER"], [[codes "X", codes "X"]]⟩ rfl,
   h3.2.2.1 ⟨[codes "period", codes "PROVIDER"], [[codes "2025-03", codes "X"]]⟩ rfl,
   hbase.2.2.2.1,
   hbase.2.2.2.2 c6w_env c6w_zip c6w_st2 (codes "2025-03")
     (codes "https://www.england.nhs.uk/statistics/wp-content/uploads/sites/2/2025/07/rtt-full-csv-Mar25.zip")
     (codes "rtt-provider-march.csv") (codes "Z") (codes "a,b\n1,2")
     (by decide) (by decide) (by decide) (by decide)⟩

/-- C8: when no column matches the provider-identity heuristics, the A&E and
ambulance fetchers fail with a descriptive error naming the dataset — "A&E
monthly" and "Ambulance handover" occur in the respective messages — and
return no table. -/
theorem c8_schema_mismatch_error (t : Table) (peers : List PyStr)
    (hae : ae_prov_col t.header = none) (hamb : amb_prov_col t.header = none) :
    ae_process t peers =
      Except.error (codes "Provider column not found in A&E monthly file.") ∧
    amb_process t peers =
      Except.error (codes "Provider column not found in Ambulance handover file.") ∧
    codes "A&E monthly" <:+: codes "Provider column not found in A&E monthly file." ∧
    codes "Ambulance handover" <:+:
      codes "Provider column not found in Ambulance handover file." := by
  refine ⟨?_, ?_, by decide, by decide⟩
  · unfold ae_process
    rw [hae]
  · unfold amb_process
    rw [hamb]

/-- C8, witnessed on a table whose only column is `x`. -/
theorem c8_schema_mismatch_error_witness :
    ae_process ⟨[codes "x"], []⟩ [] =
      Except.error (codes "Provider column not found in A&E monthly file.") :=
  (c8_schema_mismatch_error ⟨[codes "x"], []⟩ [] (by decide) (by decide)).1

/-- A row of the long-format weekly series handled by
`rolling_12_week_average`: the date (already coerced to a timestamp, as
`pd.to_datetime` on line 220 produces), the group key (the `group_cols`
values), and the numeric value column. -/
structure WRow where
  date : Int
  grp : Nat
  value : ℚ
deriving DecidableEq, Inhabited

/-- A result row: the input row plus the added `avg_12w` column. -/
structure WRowA where
  date : Int
  grp : Nat
  value : ℚ
  avg_12w : Option ℚ
deriving DecidableEq, Inhabited

/-- Insertion into a date-sorted list. -/
def insertByDate (r : WRow) : List WRow → List WRow
  | [] => [r]
  | x :: xs => if r.date ≤ x.date then r :: x :: xs else x :: insertByDate r xs

/-- Model of `x.sort_values(date_col)` (line 221): sort by date ascending. -/
def sortByDate : List WRow → List WRow
  | [] => []
  | r :: rs => insertByDate r (sortByDate rs)

/-- The `rolling(12, min_periods=4).mean()` cell at a position whose in-group
predecessors (inclusive) carry the values `vs`: the mean of the trailing
twelve values when at least four are present, otherwise nothing. -/
def windowAvg (vs : List ℚ) : Option ℚ :=
  let w := vs.drop (vs.length - 12)
  if 4 ≤ w.length then some (w.sum / w.length) else none

/-- The in-group value prefix: values of the rows of group `g` among the
first `i + 1` rows of `x`. -/
def groupPrefix (x : List WRow) (g : Nat) (i : Nat) : List ℚ :=
  ((x.take (i + 1)).filter (fun r => decide (r.grp = g))).map (fun r => r.value)

/-- Embeds `rolling_12_week_average` (lines 217-223): copy, coerce dates,
sort by date, then attach to every row the trailing 12-observation group
mean with at least 4 observations, aligned back to the sorted frame as
`groupby(...).transform(...)` does. -/
def rolling_12_week_average (df : List WRow) : List WRowA :=
  let x := sortByDate df
  x.enum.map (fun p =>
    ⟨p.2.date, p.2.grp, p.2.value, windowAvg (groupPrefix x p.2.grp p.1)⟩)

lemma windowAvg_none (vs : List ℚ) (h : vs.length < 4) : windowAvg vs = none := by
  simp only [windowAvg]
  rw [if_neg (by simp only [List.length_drop]; omega)]

lemma windowAvg_full (vs : List ℚ) (h : vs.length = 12) :
    windowAvg vs = some (vs.sum / 12) := by
  simp only [windowAvg, h, Nat.sub_self, List.drop_zero]
  norm_num

lemma groupPrefix_length_le (x : List WRow) (g i : Nat) :
    (groupPrefix x g i).length ≤
      (x.filter (fun r => decide (r.grp = g))).length := by
  unfold groupPrefix
  rw [List.length_map]
  exact List.Sublist.length_le (List.Sublist.filter _ (List.take_sublist _ _))

lemma insertByDate_perm (r : WRow) (l : List WRow) :
    (insertByDate r l).Perm (r :: l) := by
  induction l with
  | nil => exact List.Perm.refl _
  | cons x xs ih =>
    unfold insertByDate
    split_ifs with h
    · exact List.Perm.refl _
    · exact (List.Perm.cons x ih).trans (List.Perm.swap r x xs)

lemma sortByDate_perm (l : List WRow) : (sortByDate l).Perm l := by
  induction l with
  | nil => exact List.Perm.refl _
  | cons r rs ih => exact (insertByDate_perm r (sortByDate rs)).trans (ih.cons r)

lemma insertByDate_sorted (r : WRow) (l : List WRow)
    (hl : List.Pairwise (fun a b : WRow => a.date ≤ b.date) l) :
    List.Pairwise (fun a b : WRow => a.date ≤ b.date) (insertByDate r l) := by
  induction l with
  | nil => simp [insertByDate]
  | cons x xs ih =>
    rw [List.pairwise_cons] at hl
    obtain ⟨hx, hxs⟩ := hl
    unfold insertByDate
    split_ifs with h
    · rw [List.pairwise_cons]
      refine ⟨fun b hb => ?_, List.pairwise_cons.mpr ⟨hx, hxs⟩⟩
      rcases List.mem_cons.mp hb with rfl | hb2
      · exact h
      · exact le_trans h (hx b hb2)
    · rw [List.pairwise_cons]
      refine ⟨fun b hb => ?_, ih hxs⟩
      have hmem := (insertByDate_perm r xs).mem_iff.mp hb
      rcases List.mem_cons.mp hmem with rfl | hb2
      · exact le_of_not_le h
      · exact hx b hb2

lemma sortByDate_sorted (l : List WRow) :
    List.Pairwise (fun a b : WRow => a.date ≤ b.date) (sortByDate l) := by
  induction l with
  | nil => simp [sortByDate]
  | cons r rs ih => exact insertByDate_sorted r (sortByDate rs) ih

/-- C4: in `rolling_12_week_average`, a group with fewer than four rows in
the date-sorted frame gets no `avg_12w` value on any of its rows; and a row
that is the last row of a group holding exactly twelve rows carries the
arithmetic mean of the twelve group values — the trailing twelve-observation
window over the group in date-ascending order. -/
theorem c4_rolling_average (df : List WRow) (g : Nat) :
    (((sortByDate df).filter (fun r => decide (r.grp = g))).length < 4 →
       ∀ a ∈ rolling_12_week_average df, a.grp = g → a.avg_12w = none) ∧
    (∀ i, i < (sortByDate df).length →
       ((sortByDate df).getD i default).grp = g →
       (∀ r ∈ (sortByDate df).drop (i + 1), r.grp ≠ g) →
       ((sortByDate df).filter (fun r => decide (r.grp = g))).length = 12 →
       ((rolling_12_week_average df).getD i default).avg_12w =
         some ((((sortByDate df).filter (fun r => decide (r.grp = g))).map
           (fun r => r.value)).sum / 12)) := by
  constructor
  · intro hlen a ha hg
    simp only [rolling_12_week_average] at ha
    rw [List.mem_map] at ha
    obtain ⟨p, hp, rfl⟩ := ha
    have hg2 : p.2.grp = g := hg
    show windowAvg (groupPrefix (sortByDate df) p.2.grp p.1) = none
    rw [hg2]
    exact windowAvg_none _ (lt_of_le_of_lt (groupPrefix_length_le _ _ _) hlen)
  · intro i hi hg hafter hlen
    have hfull : groupPrefix (sortByDate df) g i =
        ((sortByDate df).filter (fun r => decide (r.grp = g))).map
          (fun r => r.value) := by
      unfold groupPrefix
      congr 1
      conv_rhs => rw [← List.take_append_drop (i + 1) (sortByDate df)]
      rw [List.filter_append]
      have hdrop : ((sortByDate df).drop (i + 1)).filter
          (fun r => decide (r.grp = g)) = [] :=
        List.filter_eq_nil_iff.mpr (fun r hr => by simp [hafter r hr])
      rw [hdrop, List.append_nil]
    have hlr : (rolling_12_week_average df).length = (sortByDate df).length := by
      simp [rolling_12_week_average]
    have hi2 : i < (rolling_12_week_average df).length := by rw [hlr]; exact hi
    rw [List.getD_eq_getElem _ _ hi] at hg
    rw [List.getD_eq_getElem _ _ hi2]
    simp only [rolling_12_week_average, List.getElem_map, List.getElem_enum]
    show windowAvg (groupPrefix (sortByDate df) ((sortByDate df)[i]).grp i) = _
    rw [hg, hfull, windowAvg_full _ (by rw [List.length_map]; exact hlen)]

/-- First concrete series for the C4 witness: one group with three rows. -/
def c4_df1 : List WRow := [⟨0, 0, 1⟩, ⟨1, 0, 2⟩, ⟨2, 0, 3⟩]

/-- Second concrete series for the C4 witness: one group with twelve rows,
values 1 to 12. -/
def c4_df2 : List WRow :=
  [⟨0, 0, 1⟩, ⟨1, 0, 2⟩, ⟨2, 0, 3⟩, ⟨3, 0, 4⟩, ⟨4, 0, 5⟩, ⟨5, 0, 6⟩,
   ⟨6, 0, 7⟩, ⟨7, 0, 8⟩, ⟨8, 0, 9⟩, ⟨9, 0, 10⟩, ⟨10, 0, 11⟩, ⟨11, 0, 12⟩]

/-- C4, witnessed: with three rows the first result row carries no average;
with twelve rows the twelfth row carries the mean of the twelve values. -/
theorem c4_rolling_average_witness :
    (⟨0, 0, 1, none⟩ : WRowA).avg_12w = none ∧
    ((rolling_12_week_average c4_df2).getD 11 default).avg_12w =
      some ((((sortByDate c4_df2).filter (fun r => decide (r.grp = 0))).map
        (fun r => r.value)).sum / 12) :=
  ⟨(c4_rolling_average c4_df1 0).1 (by decide) ⟨0, 0, 1, none⟩ (by decide) rfl,
   (c4_rolling_average c4_df2 0).2 11 (by decide) (by decide) (by decide) (by decide)⟩

/-- C10: `rolling_12_week_average` is a pure function of its input — the
model operates on the copied frame — and its result consists of exactly the
input rows, reordered into date-ascending order, with every original field
preserved and exactly one added column, `avg_12w`. -/
theorem c10_rolling_frame (df : List WRow) :
    (((rolling_12_week_average df).map
        (fun a => (⟨a.date, a.grp, a.value⟩ : WRow))).Perm df) ∧
    List.Pairwise (fun a b : WRow => a.date ≤ b.date)
      ((rolling_12_week_average df).map
        (fun a => (⟨a.date, a.grp, a.value⟩ : WRow))) := by
  have hproj : (rolling_12_week_average df).map
      (fun a => (⟨a.date, a.grp, a.value⟩ : WRow)) = sortByDate df := by
    simp only [rolling_12_week_average]
    rw [List.map_map]
    have hcomp : ((fun a : WRowA => (⟨a.date, a.grp, a.value⟩ : WRow)) ∘
        (fun p : Nat × WRow =>
          (⟨p.2.date, p.2.grp, p.2.value,
            windowAvg (groupPrefix (sortByDate df) p.2.grp p.1)⟩ : WRowA))) =
        Prod.snd := funext (fun p => rfl)
    rw [hcomp, List.enum_map_snd]
  rw [hproj]
  exact ⟨sortByDate_perm df, sortByDate_sorted df⟩
